import Mathlib

/-!
Verification of the alert ingestion & classification pipeline of the
motorcycle-tracker repository.

The development shallowly embeds the JavaScript presentation logic
(`frontend/src/App.js` and its historical variant) and the SQL schemas
(`backend/init_database.sql`, `database_schema.sql`).  JavaScript values are
modelled as follows: a possibly-null string field becomes `Option String`;
a timestamp string that is parsed with `new Date(...)` becomes `Option Int`
(`none` models a missing or unparsable time, i.e. a JavaScript
`Invalid Date`, whose numeric comparisons are all false); JavaScript numbers
used as counts become `Nat`, and comparator return values become `Int`.
-/

namespace TrackerSpec

/-- One persisted alert as consumed by the frontend grouping code
(`groupAlertsByDevice` in `App.js`): the fields the grouping, classification
and sorting logic reads. -/
structure Alert where
  tracker_name : Option String
  alert_type : Option String
  alert_time : Option Int
  created_at : Int
deriving DecidableEq

/-- One device group as built by `groupAlertsByDevice`:
`{device, alerts, count, latestAlert, severity}`. -/
structure Group where
  device : String
  alerts : List Alert
  count : Nat
  latestAlert : Alert
  severity : String
deriving DecidableEq

/-- `alert.tracker_name || "Unknown"`: the JavaScript falsy fallback, which
replaces both a null/undefined and an empty tracker name by `"Unknown"`. -/
def deviceKey (a : Alert) : String :=
  match a.tracker_name with
  | some s => if s = "" then "Unknown" else s
  | none => "Unknown"

/-- `new Date(x) > new Date(y)`: strict comparison of two parsed timestamps.
Any comparison involving an `Invalid Date` (`none`) is false. -/
def dateGt : Option Int → Option Int → Bool
  | some x, some y => x > y
  | _, _ => false

/-- `if (new Date(alert.alert_time) > new Date(latest.alert_time)) latest = alert`. -/
def updLatest (cur a : Alert) : Alert :=
  if dateGt a.alert_time cur.alert_time then a else cur

/-- The per-alert mutation of an existing group in `groupAlertsByDevice`:
push the alert, increment the count, and update `latestAlert` when the new
alert's time is strictly greater. -/
def stepGroup (g : Group) (a : Alert) : Group :=
  { g with
    alerts := g.alerts ++ [a]
    count := g.count + 1
    latestAlert := updLatest g.latestAlert a }

/-- The group freshly created for a device key:
`{device, alerts: [], count: 0, latestAlert: alert, severity: "normal"}`. -/
def emptyGroup (device : String) (a : Alert) : Group :=
  ⟨device, [], 0, a, "normal"⟩

/-- Processing one alert of the `alertList.forEach` loop: create the device's
group if absent, then apply the push/count/latest mutation. -/
def insertAlert (m : List Group) (a : Alert) : List Group :=
  let d := deviceKey a
  if m.any (fun g => g.device = d) then
    m.map (fun g => if g.device = d then stepGroup g a else g)
  else
    m ++ [stepGroup (emptyGroup d a) a]

/-- The grouping pass of `groupAlertsByDevice`: fold the alert list into the
(insertion-ordered) list of device groups. -/
def groupAlerts (l : List Alert) : List Group :=
  l.foldl insertAlert []

/-- The current severity rule of `groupAlertsByDevice` (`App.js`), computed
from the list of a group's alert types: `"crash-detected"` when at least one
`"Over-turn"` and at least one `"Heavy Impact"` are present, else `"high"`
when either is present, else `"normal"`. -/
def severityOf (alertTypes : List (Option String)) : String :=
  let overTurnCount := (alertTypes.filter (· = some "Over-turn")).length
  let heavyImpactCount := (alertTypes.filter (· = some "Heavy Impact")).length
  if overTurnCount ≥ 1 ∧ heavyImpactCount ≥ 1 then "crash-detected"
  else if overTurnCount > 0 ∨ heavyImpactCount > 0 then "high"
  else "normal"

/-- Character-list version of JavaScript `startsWith`. -/
def startsSeq : List Char → List Char → Bool
  | [], _ => true
  | _ :: _, [] => false
  | p :: ps, c :: cs => p = c && startsSeq ps cs

/-- Character-list version of JavaScript `includes` (substring test). -/
def containsSeq (pat : List Char) : List Char → Bool
  | [] => pat.isEmpty
  | c :: cs => startsSeq pat (c :: cs) || containsSeq pat cs

/-- JavaScript `s.includes(pat)` on strings. -/
def jsIncludes (s pat : String) : Bool :=
  containsSeq pat.data s.data

/-- The older severity rule (historical `groupAlertsByDevice` variant in the
unnamed frontend source): top tier `"heavy-impact"` when the distinct
alert-type set has both `"Light Sensor"` and `"Over-turn"`; else `"high"`
when it has `"Over-turn"`, or any type containing `"Heavy Impact"`, or any
type containing `"No Communication"`; else `"normal"`. -/
def oldSeverityOf (alertTypes : List (Option String)) : String :=
  let hasLightSensor := alertTypes.contains (some "Light Sensor")
  let hasOverTurn := alertTypes.contains (some "Over-turn")
  let hasHeavyImpact := alertTypes.any (fun t =>
    match t with
    | some s => jsIncludes s "Heavy Impact"
    | none => false)
  let hasNoCommunication := alertTypes.any (fun t =>
    match t with
    | some s => jsIncludes s "No Communication"
    | none => false)
  if hasLightSensor && hasOverTurn then "heavy-impact"
  else if hasOverTurn || hasHeavyImpact || hasNoCommunication then "high"
  else "normal"

/-- The list of alert types of a group, as read by the severity pass
(`group.alerts.map(a => a.alert_type)`). -/
def groupTypes (g : Group) : List (Option String) :=
  g.alerts.map (·.alert_type)

/-- The severity pass of `groupAlertsByDevice`: stamp every group with the
severity derived from its alert types. -/
def applySeverity (m : List Group) : List Group :=
  m.map (fun g => { g with severity := severityOf (groupTypes g) })

/-- One crash-notification entry (`{device, timestamp}`). -/
structure Crash where
  device : String
  timestamp : Int
deriving DecidableEq

/-- The `crashDetected` list built by the severity pass of
`groupAlertsByDevice`: one `{device, timestamp: latestAlert.created_at}`
entry per group whose severity is `"crash-detected"`. -/
def crashListOf (l : List Alert) : List Crash :=
  ((groupAlerts l).filter (fun g => severityOf (groupTypes g) = "crash-detected")).map
    (fun g => ⟨g.device, g.latestAlert.created_at⟩)

/-- The `setCrashAlerts` updater: append only those newly detected crashes
whose device is not already present in the list. -/
def crashUpdate (prev detected : List Crash) : List Crash :=
  prev ++ detected.filter (fun c => ¬ (prev.map (·.device)).contains c.device)

/-- `dismissCrashAlert`: remove every entry of the dismissed device. -/
def dismissCrashAlert (prev : List Crash) (device : String) : List Crash :=
  prev.filter (fun c => c.device ≠ device)

/-- The states the `crashAlerts` React state can reach: it starts `[]`, and
is only ever modified by the `setCrashAlerts` updater fed with a grouping
pass's `crashDetected` list, or by `dismissCrashAlert`. -/
inductive CrashReachable : List Crash → Prop
  | init : CrashReachable []
  | update (s : List Crash) (l : List Alert) :
      CrashReachable s → CrashReachable (crashUpdate s (crashListOf l))
  | dismiss (s : List Crash) (d : String) :
      CrashReachable s → CrashReachable (dismissCrashAlert s d)

/-- One response body of the progressive sync endpoint
(`{total, processed, remaining, completed}`). -/
structure SyncResp where
  total : Nat
  processed : Nat
  remaining : Nat
  completed : Bool
deriving DecidableEq

/-- The `while (!completed)` loop of `handleSyncTodayEmails`, run against the
(conceptually infinite) stream of successive endpoint responses, here given
as a list: each iteration issues exactly one call, consuming the next
response, and the loop exits right after a response with `completed = true`.
The result is the list of responses actually consumed, or `none` when the
provided stream is exhausted before a completed response arrives. -/
def syncLoop : List SyncResp → Option (List SyncResp)
  | [] => none
  | r :: rs => if r.completed then some [r] else (syncLoop rs).map (r :: ·)

/-! ### The pluggable sort of `groupAlertsByDevice`

Each `case` of the JavaScript `switch(sortBy)` comparator is embedded as a
function `Group → Group → Int` (the comparator's numeric return value), and
`Array.prototype.sort` — a stable sort with respect to the comparator, as
required by the ECMAScript specification — is embedded as a stable insertion
sort parameterised by the comparator. -/

/-- `a.severity === "crash-detected" || a.severity === "heavy-impact"`: the
severities the `"priority"` comparator puts first. -/
def isTop (g : Group) : Bool :=
  g.severity = "crash-detected" || g.severity = "heavy-impact"

/-- The `case "priority"` comparator: top severities first, then `"high"`
before `"normal"`, then descending count. -/
def cmpPriority (a b : Group) : Int :=
  if isTop a ∧ ¬ isTop b then -1
  else if isTop b ∧ ¬ isTop a then 1
  else if a.severity = "high" ∧ b.severity = "normal" then -1
  else if b.severity = "high" ∧ a.severity = "normal" then 1
  else (b.count : Int) - (a.count : Int)

/-- `new Date(b) - new Date(a)` as consumed by `Array.prototype.sort`: when
either date is invalid the subtraction is `NaN`, which `SortCompare` coerces
to `+0`. -/
def jsDateSub : Option Int → Option Int → Int
  | some x, some y => x - y
  | _, _ => 0

/-- The `case "newest"` comparator:
`new Date(b.latestAlert.alert_time) - new Date(a.latestAlert.alert_time)`. -/
def cmpNewest (a b : Group) : Int :=
  jsDateSub b.latestAlert.alert_time a.latestAlert.alert_time

/-- The `case "oldest"` comparator:
`new Date(a.latestAlert.alert_time) - new Date(b.latestAlert.alert_time)`. -/
def cmpOldest (a b : Group) : Int :=
  jsDateSub a.latestAlert.alert_time b.latestAlert.alert_time

/-- Lexicographic three-way comparison of character lists, the model of
`localeCompare` in the default locale. -/
def lexCmp : List Char → List Char → Int
  | [], [] => 0
  | [], _ :: _ => -1
  | _ :: _, [] => 1
  | a :: as, b :: bs => if a < b then -1 else if b < a then 1 else lexCmp as bs

/-- The `case "device"` comparator: `a.device.localeCompare(b.device)`. -/
def cmpDevice (a b : Group) : Int :=
  lexCmp a.device.data b.device.data

/-- The `case "alerts"` comparator: `b.count - a.count`. -/
def cmpAlerts (a b : Group) : Int :=
  (b.count : Int) - (a.count : Int)

/-- Insert `x` into `acc` after every element that compares strictly below
`x` and before the first element that does not: the single step of a stable
insertion sort driven by a three-way comparator. -/
def insertC (c : α → α → Int) (x : α) : List α → List α
  | [] => [x]
  | y :: ys => if c x y > 0 then y :: insertC c x ys else x :: y :: ys

/-- A stable sort with respect to the three-way comparator `c`: the model of
`Array.prototype.sort(c)` (stable by the ECMAScript specification). -/
def sortC (c : α → α → Int) : List α → List α
  | [] => []
  | x :: xs => insertC c x (sortC c xs)

/-- The whole of `groupAlertsByDevice` as far as its return value is
concerned: group, stamp severities, and sort with the comparator selected by
`sortBy` (an unknown `sortBy` hits the `default: return 0` case). -/
def groupAlertsByDevice (sortBy : String) (l : List Alert) : List Group :=
  let cmp : Group → Group → Int :=
    if sortBy = "priority" then cmpPriority
    else if sortBy = "newest" then cmpNewest
    else if sortBy = "oldest" then cmpOldest
    else if sortBy = "device" then cmpDevice
    else if sortBy = "alerts" then cmpAlerts
    else fun _ _ => 0
  sortC cmp (applySeverity (groupAlerts l))

/-! ### The persisted schemas

`backend/init_database.sql` and `database_schema.sql` both declare a
`tracker_alerts` table, with different columns and different uniqueness
constraints.  Each table is embedded as a row structure plus an executable
admissibility check of its uniqueness constraint over a list of rows. -/

/-- A row of `tracker_alerts` as declared in `backend/init_database.sql`
(the schema of `replit.md`): identity `(user_id, email_id)`, parsed fields,
and the lifecycle columns with their declared defaults. -/
structure TrackerAlertRow where
  user_id : String
  email_id : String
  alert_type : Option String
  alert_time : Option String
  location : Option String
  latitude : Option String
  longitude : Option String
  device_serial : Option String
  tracker_name : Option String
  account_name : Option String
  raw_body : Option String
  created_at : Int
  status : String
  acknowledged : Bool
  acknowledged_at : Option Int
  acknowledged_by : Option String
  notes : Option String
  assigned_to : Option String
  favorite : Bool
deriving DecidableEq

/-- A row of `tracker_alerts` as declared in `database_schema.sql` (the Neon
schema): nullable `user_id`, email metadata, parsed fields, lifecycle
columns, and a `raw_email_id` column declared `UNIQUE` on its own. -/
structure NeonAlertRow where
  id : String
  user_id : Option String
  email_subject : Option String
  email_body : Option String
  email_date : Option Int
  tracker_name : Option String
  device_serial : Option String
  alert_type : Option String
  alert_message : Option String
  location : Option String
  coordinates : Option String
  latitude : Option Rat
  longitude : Option Rat
  severity : String
  acknowledged : Bool
  acknowledged_at : Option Int
  acknowledged_by : Option String
  status : String
  assigned_to : Option String
  notes : Option String
  favorite : Bool
  created_at : Int
  raw_email_id : Option String
deriving DecidableEq

/-- No two rows of the list share the key computed by `key` (the generic
shape of a SQL `UNIQUE` constraint over non-null keys). -/
def uniqueOn (key : α → β) [DecidableEq β] : List α → Bool
  | [] => true
  | r :: rs => !(rs.any (fun q => key q = key r)) && uniqueOn key rs

/-- The `UNIQUE(user_id, email_id)` constraint of
`backend/init_database.sql`: no two rows share the `(user_id, email_id)`
pair. -/
def initPairUnique (rows : List TrackerAlertRow) : Bool :=
  uniqueOn (fun r => (r.user_id, r.email_id)) rows

/-- The `raw_email_id VARCHAR(255) UNIQUE` constraint of
`database_schema.sql`: no two rows share a non-null `raw_email_id` (SQL
`UNIQUE` lets multiple `NULL`s coexist). -/
def neonMsgUnique : List NeonAlertRow → Bool
  | [] => true
  | r :: rs =>
    !(rs.any (fun q => q.raw_email_id = r.raw_email_id ∧ r.raw_email_id ≠ none))
      && neonMsgUnique rs

/-- At most one row per `(account, message id)` pair, the dedup invariant the
claims state, checked on the Neon rows. -/
def neonPairUnique (rows : List NeonAlertRow) : Bool :=
  uniqueOn (fun r => (r.user_id, r.raw_email_id)) rows

/-- A freshly ingested row for `backend/init_database.sql`: the parsed fields
plus every lifecycle column at its declared default —
`status VARCHAR DEFAULT 'New'`, `acknowledged BOOLEAN DEFAULT FALSE`,
`acknowledged_at`/`acknowledged_by`/`notes`/`assigned_to` null,
`favorite BOOLEAN DEFAULT FALSE`. -/
def mkAlertRow (user_id email_id : String)
    (alert_type alert_time location latitude longitude device_serial
      tracker_name account_name raw_body : Option String)
    (created_at : Int) : TrackerAlertRow where
  user_id := user_id
  email_id := email_id
  alert_type := alert_type
  alert_time := alert_time
  location := location
  latitude := latitude
  longitude := longitude
  device_serial := device_serial
  tracker_name := tracker_name
  account_name := account_name
  raw_body := raw_body
  created_at := created_at
  status := "New"
  acknowledged := false
  acknowledged_at := none
  acknowledged_by := none
  notes := none
  assigned_to := none
  favorite := false

/-- Modelled from the spec: the backend `server.py` (the AlertPersister) is
not in the source tree, so its upsert is modelled from §4.2 of the
specification — an insert that collides on `(user_id, email_id)` is a
success no-op leaving the store unchanged and reporting `already_exists`
(`false`), otherwise the row is appended and `inserted` (`true`) is
reported; lifecycle columns are written only through the row's defaults. -/
def upsert (rows : List TrackerAlertRow) (r : TrackerAlertRow) :
    List TrackerAlertRow × Bool :=
  if rows.any (fun q => q.user_id = r.user_id ∧ q.email_id = r.email_id) then
    (rows, false)
  else
    (rows ++ [r], true)

/-! ### Helper lemmas -/

lemma mem_iff_filter_pos (x : String) (l : List (Option String)) :
    some x ∈ l ↔ 0 < (l.filter (· = some x)).length := by
  induction l with
  | nil => simp
  | cons a as ih =>
    by_cases h : a = some x
    · subst h
      simp [List.filter_cons]
    · simp [List.filter_cons, h, ih, Ne.symm h]

lemma severityOf_eq (types : List (Option String)) :
    severityOf types =
      if some "Over-turn" ∈ types ∧ some "Heavy Impact" ∈ types then
        "crash-detected"
      else if some "Over-turn" ∈ types ∨ some "Heavy Impact" ∈ types then
        "high"
      else "normal" := by
  have hot := mem_iff_filter_pos "Over-turn" types
  have hhi := mem_iff_filter_pos "Heavy Impact" types
  have e1 : (types.filter (· = some "Over-turn")).length ≥ 1 ↔
      some "Over-turn" ∈ types := by rw [hot]; omega
  have e2 : (types.filter (· = some "Heavy Impact")).length ≥ 1 ↔
      some "Heavy Impact" ∈ types := by rw [hhi]; omega
  have e3 : 0 < (types.filter (· = some "Over-turn")).length ↔
      some "Over-turn" ∈ types := hot.symm
  have e4 : 0 < (types.filter (· = some "Heavy Impact")).length ↔
      some "Heavy Impact" ∈ types := hhi.symm
  unfold severityOf
  simp only [gt_iff_lt, e1, e2, e3, e4]

lemma oldSeverityOf_top_iff (types : List (Option String)) :
    oldSeverityOf types = "heavy-impact" ↔
      (some "Light Sensor" ∈ types ∧ some "Over-turn" ∈ types) := by
  unfold oldSeverityOf
  by_cases hb : (types.contains (some "Light Sensor")
      && types.contains (some "Over-turn")) = true
  · rw [if_pos hb]
    simp only [Bool.and_eq_true, List.contains, List.elem_iff] at hb
    simp [hb]
  · rw [if_neg hb]
    have hnot : ¬(some "Light Sensor" ∈ types ∧ some "Over-turn" ∈ types) := by
      simpa [List.contains, List.elem_iff] using hb
    split_ifs <;> simp [hnot]

/-! ### Claims about the classifier (C2, C5) -/

/-- Claim C2, counterexample: for the alert-type set `{"No-Communication"}`
the claim demands severity High, but the current `groupAlertsByDevice`
classifier yields `"normal"` — its critical set contains only `"Over-turn"`
and `"Heavy Impact"`, not `"No-Communication"`. -/
theorem c2_counterexample :
    severityOf [some "No-Communication"] = "normal" ∧
    severityOf [some "No-Communication"] ≠ "high" := by
  constructor <;> decide

/-- Claim C2, amended: the severity is `"crash-detected"` iff the type set
contains both `"Over-turn"` and `"Heavy Impact"`; otherwise `"high"` iff it
contains at least one of `"Over-turn"` and `"Heavy Impact"` (and not
`"No-Communication"`, which the current code ignores); otherwise
`"normal"`; and the four concrete classifications of the claim that do not
involve `"No-Communication"` hold as stated. -/
theorem c2_classifier (types : List (Option String)) :
    (severityOf types = "crash-detected" ↔
      some "Over-turn" ∈ types ∧ some "Heavy Impact" ∈ types) ∧
    (severityOf types = "high" ↔
      (¬(some "Over-turn" ∈ types ∧ some "Heavy Impact" ∈ types) ∧
        (some "Over-turn" ∈ types ∨ some "Heavy Impact" ∈ types))) ∧
    (severityOf types = "normal" ↔
      ¬(some "Over-turn" ∈ types ∨ some "Heavy Impact" ∈ types)) ∧
    severityOf [some "Over-turn"] = "high" ∧
    severityOf [some "Over-turn", some "Heavy Impact"] = "crash-detected" ∧
    severityOf [some "Low Battery"] = "normal" ∧
    severityOf [] = "normal" := by
  refine ⟨?_, ?_, ?_, by decide, by decide, by decide, by decide⟩ <;>
  · rw [severityOf_eq]
    split_ifs with h1 h2 <;> simp_all

/-- Claim C5: the older grouping variant assigns its top severity tier
(`"heavy-impact"`, displayed "Heavy Impact") exactly when the device's
alert-type set contains both `"Light Sensor"` and `"Over-turn"`, while the
current variant assigns its top tier (`"crash-detected"`) exactly when the
set contains both `"Over-turn"` and `"Heavy Impact"`; on a device with
Light Sensor and Over-turn but no Heavy Impact the two classifiers
disagree, so they are not equivalent. -/
theorem c5_variants_disagree :
    (∀ types : List (Option String),
      oldSeverityOf types = "heavy-impact" ↔
        (some "Light Sensor" ∈ types ∧ some "Over-turn" ∈ types)) ∧
    (∀ types : List (Option String),
      severityOf types = "crash-detected" ↔
        (some "Over-turn" ∈ types ∧ some "Heavy Impact" ∈ types)) ∧
    oldSeverityOf [some "Light Sensor", some "Over-turn"] = "heavy-impact" ∧
    severityOf [some "Light Sensor", some "Over-turn"] = "high" ∧
    oldSeverityOf [some "Light Sensor", some "Over-turn"] ≠
      severityOf [some "Light Sensor", some "Over-turn"] := by
  refine ⟨oldSeverityOf_top_iff, ?_, by decide, by decide, by decide⟩
  intro types
  rw [severityOf_eq]
  split_ifs with h <;> simp_all

/-! ### Claim about the progressive-sync caller loop (C4) -/

lemma syncLoop_take (rs : List SyncResp) : ∀ (i : Nat) (hi : i < rs.length),
    (∀ r ∈ rs.take i, r.completed = false) →
    (rs.get ⟨i, hi⟩).completed = true →
    syncLoop rs = some (rs.take (i + 1)) := by
  induction rs with
  | nil => intro i hi; simp at hi
  | cons r rs ih =>
    intro i hi hbefore hdone
    cases i with
    | zero =>
      have hr : r.completed = true := hdone
      simp [syncLoop, hr]
    | succ i' =>
      have hr : r.completed = false := hbefore r (by simp)
      have hi' : i' < rs.length := by simpa using hi
      have hrec := ih i' hi' (fun x hx => hbefore x (by simp [hx]))
        (by simpa using hdone)
      simp [syncLoop, hr, hrec]

/-- Claim C4: run against any stream of endpoint responses whose first
`completed = true` response sits at position `i`, the
`handleSyncTodayEmails` loop consumes exactly the first `i + 1` responses —
one endpoint call per iteration, iterating exactly while `completed` is
false — and stops with the response whose `completed` flag is true. -/
theorem c4_progressive_sync (rs : List SyncResp) (i : Nat) (hi : i < rs.length)
    (hbefore : ∀ r ∈ rs.take i, r.completed = false)
    (hdone : (rs.get ⟨i, hi⟩).completed = true) :
    syncLoop rs = some (rs.take (i + 1)) ∧
    (rs.take (i + 1)).length = i + 1 := by
  refine ⟨syncLoop_take rs i hi hbefore hdone, ?_⟩
  rw [List.length_take]
  omega

/-- Claim C4, witness: a two-response stream whose second response completes
is consumed whole. -/
theorem c4_progressive_sync_witness :
    syncLoop [⟨10, 5, 5, false⟩, ⟨10, 10, 0, true⟩] =
      some [⟨10, 5, 5, false⟩, ⟨10, 10, 0, true⟩] := by
  have h := (c4_progressive_sync [⟨10, 5, 5, false⟩, ⟨10, 10, 0, true⟩] 1
    (by decide) (by decide) (by decide)).1
  exact h

/-! ### The grouping invariant (C3, C6, C9) -/

lemma groupAlerts_snoc (l : List Alert) (a : Alert) :
    groupAlerts (l ++ [a]) = insertAlert (groupAlerts l) a := by
  unfold groupAlerts
  rw [List.foldl_append]
  rfl

lemma stepGroup_device (g : Group) (a : Alert) :
    (stepGroup g a).device = g.device := rfl

lemma updLatest_self (a : Alert) : updLatest a a = a := by
  unfold updLatest
  exact ite_self a

/-- The structural invariant of the grouping pass: device keys are distinct,
a device group exists exactly for the keys occurring in the input, and every
group carries exactly the input's records of its key in order, with `count`
the group size and `latestAlert` the fold of the strict-greater update over
the group. -/
lemma groupAlerts_inv (l : List Alert) :
    ((groupAlerts l).map (·.device)).Nodup ∧
    (∀ d : String,
      (∃ g ∈ groupAlerts l, g.device = d) ↔ ∃ a ∈ l, deviceKey a = d) ∧
    (∀ g ∈ groupAlerts l,
      g.alerts = l.filter (fun a => deviceKey a = g.device) ∧
      g.count = g.alerts.length ∧
      g.severity = "normal" ∧
      ∃ x xs, g.alerts = x :: xs ∧ g.latestAlert = List.foldl updLatest x xs) := by
  induction l using List.reverseRecOn with
  | nil => simp [groupAlerts]
  | append_singleton l a ih =>
    obtain ⟨ihnd, ihcov, ihchar⟩ := ih
    rw [groupAlerts_snoc]
    by_cases hmem : (groupAlerts l).any (fun g => g.device = deviceKey a) = true
    · -- the device's group already exists: one group is updated in place
      have hmem' : ∃ g ∈ groupAlerts l, g.device = deviceKey a := by
        simpa using hmem
      have hins : insertAlert (groupAlerts l) a =
          (groupAlerts l).map
            (fun g => if g.device = deviceKey a then stepGroup g a else g) := by
        unfold insertAlert
        simp [hmem]
      rw [hins]
      have hdev : ((groupAlerts l).map
            (fun g => if g.device = deviceKey a then stepGroup g a else g)).map
            (·.device) = (groupAlerts l).map (·.device) := by
        rw [List.map_map]
        apply List.map_congr_left
        intro g _
        by_cases hg : g.device = deviceKey a <;> simp [hg, stepGroup_device]
      refine ⟨by rw [hdev]; exact ihnd, ?_, ?_⟩
      · intro d
        constructor
        · rintro ⟨g', hg', hgd⟩
          obtain ⟨g, hg, rfl⟩ := List.mem_map.mp hg'
          by_cases hcase : g.device = deviceKey a
          · rw [if_pos hcase, stepGroup_device] at hgd
            exact ⟨a, by simp, hcase ▸ hgd⟩
          · rw [if_neg hcase] at hgd
            obtain ⟨a', ha', hk⟩ := (ihcov d).mp ⟨g, hg, hgd⟩
            exact ⟨a', by simp [ha'], hk⟩
        · rintro ⟨a', ha', hk⟩
          rcases List.mem_append.mp ha' with h | h
          · obtain ⟨g, hg, hgd⟩ := (ihcov d).mpr ⟨a', h, hk⟩
            refine ⟨if g.device = deviceKey a then stepGroup g a else g,
              List.mem_map.mpr ⟨g, hg, rfl⟩, ?_⟩
            by_cases hcase : g.device = deviceKey a
            · rw [if_pos hcase, stepGroup_device]; exact hgd
            · rw [if_neg hcase]; exact hgd
          · have haa : a' = a := by simpa using h
            obtain ⟨g, hg, hgd⟩ := hmem'
            refine ⟨stepGroup g a, List.mem_map.mpr ⟨g, hg, if_pos hgd⟩, ?_⟩
            rw [stepGroup_device, hgd, ← haa, hk]
      · intro g' hg'
        obtain ⟨g, hg, rfl⟩ := List.mem_map.mp hg'
        obtain ⟨halerts, hcount, hsev, x, xs, hxs, hlatest⟩ := ihchar g hg
        by_cases hcase : g.device = deviceKey a
        · rw [if_pos hcase]
          refine ⟨?_, ?_, hsev, x, xs ++ [a], ?_, ?_⟩
          · show g.alerts ++ [a] =
              (l ++ [a]).filter (fun b => deviceKey b = (stepGroup g a).device)
            rw [stepGroup_device, List.filter_append, ← halerts]
            simp [hcase]
          · show g.count + 1 = (g.alerts ++ [a]).length
            simp [hcount]
          · show g.alerts ++ [a] = x :: (xs ++ [a])
            rw [hxs]; rfl
          · show updLatest g.latestAlert a = List.foldl updLatest x (xs ++ [a])
            rw [List.foldl_append, ← hlatest]
            rfl
        · rw [if_neg hcase]
          refine ⟨?_, hcount, hsev, x, xs, hxs, hlatest⟩
          rw [List.filter_append, ← halerts]
          have hne : ¬ (deviceKey a = g.device) := fun h => hcase h.symm
          simp [hne]
    · -- fresh device: a one-record group is appended
      have hnone : ∀ g ∈ groupAlerts l, g.device ≠ deviceKey a := by
        intro g hg
        simp only [List.any_eq_true, decide_eq_true_eq] at hmem
        exact fun h => hmem ⟨g, hg, h⟩
      have hins : insertAlert (groupAlerts l) a =
          groupAlerts l ++ [stepGroup (emptyGroup (deviceKey a) a) a] := by
        unfold insertAlert
        simp only [List.any_eq_true, decide_eq_true_eq]
        rw [if_neg]
        intro ⟨g, hg, h⟩
        exact hnone g hg h
      have hfresh : l.filter (fun b => deviceKey b = deviceKey a) = [] := by
        rw [List.filter_eq_nil]
        intro b hb
        simp only [decide_eq_true_eq]
        intro h
        obtain ⟨g, hg, hgd⟩ := (ihcov (deviceKey a)).mpr ⟨b, hb, h⟩
        exact hnone g hg hgd
      have hnew : stepGroup (emptyGroup (deviceKey a) a) a =
          ⟨deviceKey a, [a], 1, a, "normal"⟩ := by
        unfold stepGroup emptyGroup
        simp [updLatest_self]
      rw [hins, hnew]
      refine ⟨?_, ?_, ?_⟩
      · rw [List.map_append]
        refine List.Nodup.append ihnd (by simp) ?_
        intro d hd hd'
        obtain ⟨g, hg, hgd⟩ := List.mem_map.mp hd
        have : d = deviceKey a := by simpa using hd'
        exact hnone g hg (by rw [hgd, this])
      · intro d
        constructor
        · rintro ⟨g', hg', hgd⟩
          rcases List.mem_append.mp hg' with h | h
          · obtain ⟨a', ha', hk⟩ := (ihcov d).mp ⟨g', h, hgd⟩
            exact ⟨a', by simp [ha'], hk⟩
          · have : g' = ⟨deviceKey a, [a], 1, a, "normal"⟩ := by simpa using h
            exact ⟨a, by simp, by rw [← hgd, this]⟩
        · rintro ⟨a', ha', hk⟩
          rcases List.mem_append.mp ha' with h | h
          · obtain ⟨g, hg, hgd⟩ := (ihcov d).mpr ⟨a', h, hk⟩
            exact ⟨g, by simp [hg], hgd⟩
          · have haa : a' = a := by simpa using h
            refine ⟨⟨deviceKey a, [a], 1, a, "normal"⟩, by simp, ?_⟩
            show deviceKey a = d
            rw [← haa]
            exact hk
      · intro g' hg'
        rcases List.mem_append.mp hg' with h | h
        · obtain ⟨halerts, hcount, hsev, x, xs, hxs, hlatest⟩ := ihchar g' h
          refine ⟨?_, hcount, hsev, x, xs, hxs, hlatest⟩
          rw [List.filter_append, ← halerts]
          have : deviceKey a ≠ g'.device := fun hc => hnone g' h hc.symm
          simp [fun hc : deviceKey a = g'.device => this hc]
        · have : g' = ⟨deviceKey a, [a], 1, a, "normal"⟩ := by simpa using h
          subst this
          refine ⟨?_, rfl, rfl, a, [], rfl, rfl⟩
          show [a] = (l ++ [a]).filter (fun b => deviceKey b = deviceKey a)
          rw [List.filter_append, hfresh]
          simp

lemma counts_sum_update (m : List Group) (d : String) (a : Alert)
    (hnd : (m.map (·.device)).Nodup) (hmem : ∃ g ∈ m, g.device = d) :
    ((m.map (fun g => if g.device = d then stepGroup g a else g)).map
      (·.count)).sum = (m.map (·.count)).sum + 1 := by
  induction m with
  | nil => simp at hmem
  | cons g gs ih =>
    by_cases hg : g.device = d
    · have hrest : ∀ g' ∈ gs, g'.device ≠ d := by
        intro g' hg' he
        have hnotin := (List.nodup_cons.mp hnd).1
        exact hnotin (List.mem_map.mpr ⟨g', hg', he.trans hg.symm⟩)
      have hid : ∀ g' ∈ gs,
          (if g'.device = d then stepGroup g' a else g') = g' :=
        fun g' hg' => if_neg (hrest g' hg')
      simp only [List.map_cons, if_pos hg, List.sum_cons,
        List.map_congr_left hid, List.map_id, List.map_id']
      show (stepGroup g a).count + _ = _
      simp only [stepGroup]
      omega
    · have hmem' : ∃ g' ∈ gs, g'.device = d := by
        rcases hmem with ⟨g', hg', he⟩
        rcases List.mem_cons.mp hg' with rfl | h
        · exact absurd he hg
        · exact ⟨g', h, he⟩
      have hnd' := (List.nodup_cons.mp hnd).2
      simp only [List.map_cons, if_neg hg, List.sum_cons, ih hnd' hmem']
      omega

lemma counts_sum (l : List Alert) :
    ((groupAlerts l).map (·.count)).sum = l.length := by
  induction l using List.reverseRecOn with
  | nil => simp [groupAlerts]
  | append_singleton l a ih =>
    rw [groupAlerts_snoc]
    by_cases hmem : (groupAlerts l).any (fun g => g.device = deviceKey a) = true
    · have hins : insertAlert (groupAlerts l) a =
          (groupAlerts l).map
            (fun g => if g.device = deviceKey a then stepGroup g a else g) := by
        unfold insertAlert
        simp [hmem]
      rw [hins, counts_sum_update _ _ a (groupAlerts_inv l).1 (by simpa using hmem),
        ih]
      simp
    · have hins : insertAlert (groupAlerts l) a =
          groupAlerts l ++ [stepGroup (emptyGroup (deviceKey a) a) a] := by
        unfold insertAlert
        simp only [List.any_eq_true, decide_eq_true_eq]
        rw [if_neg]
        simpa using hmem
      rw [hins]
      simp [ih, stepGroup, emptyGroup]

/-- Claim C3: the grouping pass partitions its input — every record lands in
exactly one group, keyed by its device name with the `"Unknown"` fallback —
so the groups' counts sum to the input length; moreover each group's records
are exactly the input records of its key, each count is its group's size,
device keys are pairwise distinct, and every record's key has a group. -/
theorem c3_aggregation_partition (l : List Alert) :
    ((groupAlerts l).map (·.count)).sum = l.length ∧
    (∀ g ∈ groupAlerts l,
      g.alerts = l.filter (fun a => deviceKey a = g.device) ∧
      g.count = g.alerts.length) ∧
    ((groupAlerts l).map (·.device)).Nodup ∧
    (∀ a ∈ l, ∃ g ∈ groupAlerts l, g.device = deviceKey a) := by
  obtain ⟨hnd, hcov, hchar⟩ := groupAlerts_inv l
  refine ⟨counts_sum l, fun g hg => ⟨(hchar g hg).1, (hchar g hg).2.1⟩, hnd, ?_⟩
  intro a ha
  exact (hcov (deviceKey a)).mpr ⟨a, ha, rfl⟩

/-! ### The latest-alert selection (C6, C9) -/

/-- The parsed time of an alert, defaulting to `0`; meaningful only where
every time under consideration is known valid. -/
def timeOf (a : Alert) : Int := a.alert_time.getD 0

lemma dateGt_none_right (t : Option Int) : dateGt t none = false := by
  cases t <;> rfl

lemma foldl_updLatest_none (x : Alert) (hx : x.alert_time = none) :
    ∀ xs, List.foldl updLatest x xs = x := by
  intro xs
  induction xs with
  | nil => rfl
  | cons a rest ih =>
    have hupd : updLatest x a = x := by
      simp [updLatest, hx, dateGt_none_right]
    rw [List.foldl_cons, hupd, ih]

lemma foldl_updLatest_decomp :
    ∀ (xs : List Alert) (x : Alert),
      (∀ a ∈ x :: xs, a.alert_time.isSome = true) →
      ∃ l₁ l₂, x :: xs = l₁ ++ (List.foldl updLatest x xs) :: l₂ ∧
        (∀ a ∈ l₁, timeOf a < timeOf (List.foldl updLatest x xs)) ∧
        (∀ a ∈ l₂, timeOf a ≤ timeOf (List.foldl updLatest x xs)) := by
  intro xs
  induction xs with
  | nil =>
    intro x _
    exact ⟨[], [], rfl, by simp, by simp⟩
  | cons a rest ih =>
    intro x hall
    have hxv : x.alert_time.isSome = true := hall x (by simp)
    have hav : a.alert_time.isSome = true := hall a (by simp)
    obtain ⟨ta, hta⟩ := Option.isSome_iff_exists.mp hav
    obtain ⟨tx, htx⟩ := Option.isSome_iff_exists.mp hxv
    have hfold : List.foldl updLatest x (a :: rest) =
        List.foldl updLatest (updLatest x a) rest := rfl
    by_cases hgt : dateGt a.alert_time x.alert_time = true
    · have hupd : updLatest x a = a := by simp [updLatest, hgt]
      have hL : List.foldl updLatest x (a :: rest) =
          List.foldl updLatest a rest := by rw [hfold, hupd]
      have hall' : ∀ b ∈ a :: rest, b.alert_time.isSome = true := by
        intro b hb
        exact hall b (List.mem_cons_of_mem x hb)
      obtain ⟨l₁, l₂, hdec, h₁, h₂⟩ := ih a hall'
      have hta_le : timeOf a ≤ timeOf (List.foldl updLatest a rest) := by
        have hmem_a : a ∈ l₁ ++ (List.foldl updLatest a rest) :: l₂ := by
          rw [← hdec]; simp
        rcases List.mem_append.mp hmem_a with h | h
        · exact le_of_lt (h₁ a h)
        · rcases List.mem_cons.mp h with he | h
          · exact le_of_eq (congrArg timeOf he)
          · exact h₂ a h
      have htx_lt : timeOf x < timeOf a := by
        rw [hta, htx] at hgt
        simp only [dateGt, decide_eq_true_eq] at hgt
        simp [timeOf, hta, htx]
        exact hgt
      rw [hL]
      refine ⟨x :: l₁, l₂, ?_, ?_, h₂⟩
      · rw [List.cons_append, hdec]
      · intro b hb
        rcases List.mem_cons.mp hb with he | h
        · rw [he]; exact lt_of_lt_of_le htx_lt hta_le
        · exact h₁ b h
    · have hupd : updLatest x a = x := by simp [updLatest, hgt]
      have hL : List.foldl updLatest x (a :: rest) =
          List.foldl updLatest x rest := by rw [hfold, hupd]
      have hall' : ∀ b ∈ x :: rest, b.alert_time.isSome = true := by
        intro b hb
        rcases List.mem_cons.mp hb with he | h
        · rw [he]; exact hxv
        · exact hall b (List.mem_cons_of_mem x (List.mem_cons_of_mem a h))
      obtain ⟨l₁, l₂, hdec, h₁, h₂⟩ := ih x hall'
      have hta_le_tx : timeOf a ≤ timeOf x := by
        rw [hta, htx] at hgt
        simp only [dateGt, decide_eq_true_eq, not_lt] at hgt
        simp [timeOf, hta, htx]
        exact hgt
      rw [hL]
      cases l₁ with
      | nil =>
        simp only [List.nil_append] at hdec
        injection hdec with h1 h2
        refine ⟨[], a :: l₂, ?_, by simp, ?_⟩
        · simp only [List.nil_append]
          rw [← h1, ← h2]
        · intro b hb
          rcases List.mem_cons.mp hb with he | h
          · rw [he, ← h1]; exact hta_le_tx
          · exact h₂ b h
      | cons y l₁' =>
        rw [List.cons_append] at hdec
        injection hdec with h1 h2
        have hx_lt : timeOf x < timeOf (List.foldl updLatest x rest) := by
          have hy := h₁ y (by simp)
          rw [← h1] at hy
          exact hy
        refine ⟨x :: a :: l₁', l₂, ?_, ?_, h₂⟩
        · rw [List.cons_append, List.cons_append]
          conv_lhs => rw [h2]
        · intro b hb
          rcases List.mem_cons.mp hb with he | h
          · rw [he]; exact hx_lt
          · rcases List.mem_cons.mp h with he' | h'
            · rw [he']; exact lt_of_le_of_lt hta_le_tx hx_lt
            · exact h₁ b (List.mem_cons_of_mem y h')

/-- Claim C6: in any device group all of whose records carry a valid
(parsed) `alert_time`, the group's `latestAlert` is a member of the group
attaining the maximal time, and it is the earliest such member in insertion
order — records before it are strictly older, records after it are no newer
(a later record replaces the current latest only when strictly greater). -/
theorem c6_latest_alert (l : List Alert) (g : Group) (hg : g ∈ groupAlerts l)
    (hvalid : ∀ a ∈ g.alerts, a.alert_time.isSome = true) :
    g.latestAlert ∈ g.alerts ∧
    (∀ a ∈ g.alerts, timeOf a ≤ timeOf g.latestAlert) ∧
    ∃ l₁ l₂, g.alerts = l₁ ++ g.latestAlert :: l₂ ∧
      (∀ a ∈ l₁, timeOf a < timeOf g.latestAlert) ∧
      (∀ a ∈ l₂, timeOf a ≤ timeOf g.latestAlert) := by
  obtain ⟨-, -, hchar⟩ := groupAlerts_inv l
  obtain ⟨-, -, -, x, xs, hxs, hlatest⟩ := hchar g hg
  have hvalid' : ∀ a ∈ x :: xs, a.alert_time.isSome = true := by
    rw [← hxs]; exact hvalid
  obtain ⟨l₁, l₂, hdec, h₁, h₂⟩ := foldl_updLatest_decomp xs x hvalid'
  rw [hxs, hlatest]
  refine ⟨?_, ?_, l₁, l₂, hdec, h₁, h₂⟩
  · rw [hdec]; simp
  · intro a ha
    rw [hdec] at ha
    rcases List.mem_append.mp ha with h | h
    · exact le_of_lt (h₁ a h)
    · rcases List.mem_cons.mp h with he | h
      · exact le_of_eq (congrArg timeOf he)
      · exact h₂ a h

/-- Claim C6, witness: on a three-record group with times 5, 9, 9 the
selected latest alert is the first record with time 9. -/
theorem c6_latest_alert_witness :
    (⟨"D", [⟨some "D", some "Motion", some 5, 0⟩,
        ⟨some "D", some "Motion", some 9, 1⟩,
        ⟨some "D", some "Motion", some 9, 2⟩], 3,
      ⟨some "D", some "Motion", some 9, 1⟩, "normal"⟩ : Group).latestAlert ∈
      (⟨"D", [⟨some "D", some "Motion", some 5, 0⟩,
        ⟨some "D", some "Motion", some 9, 1⟩,
        ⟨some "D", some "Motion", some 9, 2⟩], 3,
      ⟨some "D", some "Motion", some 9, 1⟩, "normal"⟩ : Group).alerts ∧
    (∀ a ∈ (⟨"D", [⟨some "D", some "Motion", some 5, 0⟩,
        ⟨some "D", some "Motion", some 9, 1⟩,
        ⟨some "D", some "Motion", some 9, 2⟩], 3,
      ⟨some "D", some "Motion", some 9, 1⟩, "normal"⟩ : Group).alerts,
      timeOf a ≤ timeOf (⟨"D", [⟨some "D", some "Motion", some 5, 0⟩,
        ⟨some "D", some "Motion", some 9, 1⟩,
        ⟨some "D", some "Motion", some 9, 2⟩], 3,
      ⟨some "D", some "Motion", some 9, 1⟩, "normal"⟩ : Group).latestAlert) ∧
    ∃ l₁ l₂,
      (⟨"D", [⟨some "D", some "Motion", some 5, 0⟩,
        ⟨some "D", some "Motion", some 9, 1⟩,
        ⟨some "D", some "Motion", some 9, 2⟩], 3,
      ⟨some "D", some "Motion", some 9, 1⟩, "normal"⟩ : Group).alerts =
        l₁ ++ (⟨"D", [⟨some "D", some "Motion", some 5, 0⟩,
          ⟨some "D", some "Motion", some 9, 1⟩,
          ⟨some "D", some "Motion", some 9, 2⟩], 3,
        ⟨some "D", some "Motion", some 9, 1⟩, "normal"⟩ : Group).latestAlert :: l₂ ∧
      (∀ a ∈ l₁, timeOf a < timeOf (⟨"D", [⟨some "D", some "Motion", some 5, 0⟩,
          ⟨some "D", some "Motion", some 9, 1⟩,
          ⟨some "D", some "Motion", some 9, 2⟩], 3,
        ⟨some "D", some "Motion", some 9, 1⟩, "normal"⟩ : Group).latestAlert) ∧
      (∀ a ∈ l₂, timeOf a ≤ timeOf (⟨"D", [⟨some "D", some "Motion", some 5, 0⟩,
          ⟨some "D", some "Motion", some 9, 1⟩,
          ⟨some "D", some "Motion", some 9, 2⟩], 3,
        ⟨some "D", some "Motion", some 9, 1⟩, "normal"⟩ : Group).latestAlert) :=
  c6_latest_alert
    [⟨some "D", some "Motion", some 5, 0⟩,
      ⟨some "D", some "Motion", some 9, 1⟩,
      ⟨some "D", some "Motion", some 9, 2⟩] _ (by decide) (by decide)

/-- Claim C9: when the first record of a device group carries an absent or
unparsable `alert_time`, that record stays the group's `latestAlert` for the
whole pass, no matter how many later records of the group carry valid and
arbitrarily large times — every date comparison against the invalid
timestamp is false. -/
theorem c9_invalid_first_sticks (l : List Alert) (g : Group)
    (hg : g ∈ groupAlerts l) (x : Alert) (xs : List Alert)
    (hx : g.alerts = x :: xs) (hnone : x.alert_time = none) :
    g.latestAlert = x := by
  obtain ⟨-, -, hchar⟩ := groupAlerts_inv l
  obtain ⟨-, -, -, x', xs', hxs', hlatest⟩ := hchar g hg
  rw [hx] at hxs'
  injection hxs' with h1 h2
  rw [hlatest, ← h1, ← h2]
  exact foldl_updLatest_none x hnone xs

/-- Claim C9, witness: a device whose first record has no parsed time keeps
it as latest even though the second record's time is 100. -/
theorem c9_invalid_first_sticks_witness :
    (⟨"D", [⟨some "D", some "Over-turn", none, 0⟩,
        ⟨some "D", some "Motion", some 100, 1⟩], 2,
      ⟨some "D", some "Over-turn", none, 0⟩, "normal"⟩ : Group).latestAlert =
      ⟨some "D", some "Over-turn", none, 0⟩ :=
  c9_invalid_first_sticks
    [⟨some "D", some "Over-turn", none, 0⟩, ⟨some "D", some "Motion", some 100, 1⟩]
    _ (by decide) _ [⟨some "D", some "Motion", some 100, 1⟩] rfl rfl

/-! ### The crash-notification list (C10) -/

lemma crashListOf_devices_nodup (l : List Alert) :
    ((crashListOf l).map (·.device)).Nodup := by
  unfold crashListOf
  rw [List.map_map]
  exact ((groupAlerts_inv l).1).sublist
    ((List.filter_sublist _).map _)

/-- Claim C10: every state the crash-notification list can reach — starting
empty, appending via the duplicate-filtering updater fed by a grouping
pass's detected crashes, or dismissing a device — has pairwise-distinct
device names: the list keeps at most one entry per device. -/
theorem c10_crash_list_invariant (s : List Crash) (h : CrashReachable s) :
    (s.map (·.device)).Nodup := by
  induction h with
  | init => simp
  | update s l _ ih =>
    unfold crashUpdate
    rw [List.map_append]
    refine List.Nodup.append ih
      ((crashListOf_devices_nodup l).sublist ((List.filter_sublist _).map _)) ?_
    intro d hd1 hd2
    obtain ⟨c, hc, hcd⟩ := List.mem_map.mp hd2
    have hfc := (List.mem_filter.mp hc).2
    simp only [decide_eq_true_eq, List.contains, List.elem_iff] at hfc
    apply hfc
    rw [hcd]
    exact hd1
  | dismiss s d _ ih =>
    unfold dismissCrashAlert
    exact ih.sublist ((List.filter_sublist _).map _)

/-- Claim C10, witness: after one update with a detected crash (a device
with both an Over-turn and a Heavy Impact alert) the reachable list has
pairwise-distinct devices. -/
theorem c10_crash_list_invariant_witness :
    ((crashUpdate [] (crashListOf
      [⟨some "D", some "Over-turn", some 1, 0⟩,
        ⟨some "D", some "Heavy Impact", some 2, 1⟩])).map (·.device)).Nodup :=
  c10_crash_list_invariant _ (CrashReachable.update [] _ CrashReachable.init)

/-! ### Claims about the persisted schema and ingestion (C1, C8) -/

/-- A `database_schema.sql` row with every defaultable column at its
declared default (`severity 'normal'`, `status 'new'`, booleans false,
the rest null), identified by a user and a message id. -/
def neonDefaultRow (uid mid : String) : NeonAlertRow :=
  ⟨"id-" ++ mid, some uid, none, none, none, none, none, none, none, none,
    none, none, none, "normal", false, none, none, "new", none, none, false,
    0, some mid⟩

/-- Claim C1, counterexample: `database_schema.sql` declares
`raw_email_id VARCHAR(255) UNIQUE` — the message id alone.  A two-row store
holding the same message id under two different accounts satisfies
pair-uniqueness (at most one row per `(account, message id)`) yet violates
that schema's constraint, so the key that schema enforces is not the pair. -/
theorem c1_counterexample :
    neonPairUnique [neonDefaultRow "u1" "m1", neonDefaultRow "u2" "m1"] = true ∧
    neonMsgUnique [neonDefaultRow "u1" "m1", neonDefaultRow "u2" "m1"] = false := by
  constructor <;> rfl

lemma uniqueOn_append {α β : Type} (key : α → β) [DecidableEq β]
    (l : List α) (r : α) (h : uniqueOn key l = true)
    (hr : ∀ q ∈ l, key q ≠ key r) :
    uniqueOn key (l ++ [r]) = true := by
  induction l with
  | nil => simp [uniqueOn]
  | cons x xs ih =>
    rw [List.cons_append]
    have hx := (Bool.and_eq_true _ _).mp h
    have h1 : uniqueOn key xs = true := hx.2
    have h2 : xs.any (fun q => key q = key x) = false := by
      have := hx.1
      simpa using this
    show (!(xs ++ [r]).any (fun q => key q = key x)
        && uniqueOn key (xs ++ [r])) = true
    rw [ih h1 (fun q hq => hr q (List.mem_cons_of_mem x hq))]
    have h3 : (xs ++ [r]).any (fun q => key q = key x) = false := by
      rw [List.any_append, h2]
      simp only [List.any_cons, List.any_nil, Bool.or_false, Bool.false_or,
        decide_eq_false_iff_not]
      exact fun he => hr x (List.mem_cons_self x xs) he.symm
    rw [h3]
    rfl

/-- Claim C1, amended: under the schema the ingestion actually targets
(`backend/init_database.sql`, `UNIQUE(user_id, email_id)`), the
spec-modelled upsert preserves at-most-one-row-per-`(account, message id)`,
and re-ingesting a message whose pair is already present is a success no-op
that leaves the store unchanged and raises no error; the alternative schema
file `database_schema.sql` instead makes the message id alone the unique
key. -/
theorem c1_pair_dedup (rows : List TrackerAlertRow) (r : TrackerAlertRow)
    (hu : initPairUnique rows = true) :
    initPairUnique (upsert rows r).1 = true ∧
    (rows.any (fun q => q.user_id = r.user_id ∧ q.email_id = r.email_id)
        = true →
      upsert rows r = (rows, false)) := by
  constructor
  · unfold upsert
    split_ifs with hc
    · exact hu
    · have hno : ∀ q ∈ rows,
          (fun w : TrackerAlertRow => (w.user_id, w.email_id)) q ≠
            (fun w : TrackerAlertRow => (w.user_id, w.email_id)) r := by
        intro q hq he
        simp only [List.any_eq_true, decide_eq_true_eq] at hc
        apply hc
        refine ⟨q, hq, ?_, ?_⟩
        · exact congrArg Prod.fst he
        · exact congrArg Prod.snd he
      exact uniqueOn_append _ rows r hu hno
  · intro h
    unfold upsert
    split_ifs
    rfl

/-- Claim C1, witness: re-ingesting the one `(u1, m1)` message already in
the store changes nothing and reports no insert. -/
theorem c1_pair_dedup_witness :
    initPairUnique (upsert
      [mkAlertRow "u1" "m1" none none none none none none none none none 0]
      (mkAlertRow "u1" "m1" none none none none none none none none none 1)).1
        = true ∧
    ([mkAlertRow "u1" "m1" none none none none none none none none none 0].any
        (fun q => q.user_id = "u1" ∧ q.email_id = "m1") = true →
      upsert [mkAlertRow "u1" "m1" none none none none none none none none none 0]
          (mkAlertRow "u1" "m1" none none none none none none none none none 1) =
        ([mkAlertRow "u1" "m1" none none none none none none none none none 0],
          false)) :=
  c1_pair_dedup
    [mkAlertRow "u1" "m1" none none none none none none none none none 0]
    (mkAlertRow "u1" "m1" none none none none none none none none none 1)
    (by decide)

/-- Claim C8, counterexample: in the schema the ingestion targets
(`backend/init_database.sql`) the declared default of `status` is the
string `'New'`, not the claim's `"new"` (string comparison is
case-sensitive). -/
theorem c8_counterexample :
    (mkAlertRow "u1" "m1" none none none none none none none none none
      0).status = "New" ∧
    (mkAlertRow "u1" "m1" none none none none none none none none none
      0).status ≠ "new" := by
  constructor
  · rfl
  · decide

/-- Claim C8, amended: every freshly ingested row starts with its lifecycle
columns at the `backend/init_database.sql` defaults — `status = "New"`
(capitalised; `database_schema.sql` spells its default `'new'`),
`acknowledged = false`, `acknowledged_at`/`acknowledged_by`/`notes`/
`assigned_to` null, `favorite = false` — and re-syncing a message whose
`(user_id, email_id)` pair is already stored leaves the store, and hence
those fields, untouched. -/
theorem c8_lifecycle_defaults (uid mid : String)
    (f1 f2 f3 f4 f5 f6 f7 f8 f9 : Option String) (t : Int)
    (rows : List TrackerAlertRow)
    (hdup : rows.any (fun q => q.user_id = uid ∧ q.email_id = mid) = true) :
    (mkAlertRow uid mid f1 f2 f3 f4 f5 f6 f7 f8 f9 t).status = "New" ∧
    (mkAlertRow uid mid f1 f2 f3 f4 f5 f6 f7 f8 f9 t).acknowledged = false ∧
    (mkAlertRow uid mid f1 f2 f3 f4 f5 f6 f7 f8 f9 t).acknowledged_at = none ∧
    (mkAlertRow uid mid f1 f2 f3 f4 f5 f6 f7 f8 f9 t).acknowledged_by = none ∧
    (mkAlertRow uid mid f1 f2 f3 f4 f5 f6 f7 f8 f9 t).notes = none ∧
    (mkAlertRow uid mid f1 f2 f3 f4 f5 f6 f7 f8 f9 t).assigned_to = none ∧
    (mkAlertRow uid mid f1 f2 f3 f4 f5 f6 f7 f8 f9 t).favorite = false ∧
    upsert rows (mkAlertRow uid mid f1 f2 f3 f4 f5 f6 f7 f8 f9 t) =
      (rows, false) := by
  refine ⟨rfl, rfl, rfl, rfl, rfl, rfl, rfl, ?_⟩
  unfold upsert
  split_ifs with hc
  · rfl
  · exact absurd hdup (by simpa [mkAlertRow] using hc)

/-- Claim C8, witness: the concrete `(u1, m1)` re-sync keeps the stored row
and the defaults. -/
theorem c8_lifecycle_defaults_witness :
    (mkAlertRow "u1" "m1" none none none none none none none none none
      5).status = "New" ∧
    (mkAlertRow "u1" "m1" none none none none none none none none none
      5).acknowledged = false ∧
    (mkAlertRow "u1" "m1" none none none none none none none none none
      5).acknowledged_at = none ∧
    (mkAlertRow "u1" "m1" none none none none none none none none none
      5).acknowledged_by = none ∧
    (mkAlertRow "u1" "m1" none none none none none none none none none
      5).notes = none ∧
    (mkAlertRow "u1" "m1" none none none none none none none none none
      5).assigned_to = none ∧
    (mkAlertRow "u1" "m1" none none none none none none none none none
      5).favorite = false ∧
    upsert [mkAlertRow "u1" "m1" none none none none none none none none none 0]
        (mkAlertRow "u1" "m1" none none none none none none none none none 5) =
      ([mkAlertRow "u1" "m1" none none none none none none none none none 0],
        false) :=
  c8_lifecycle_defaults "u1" "m1" none none none none none none none none none 5
    [mkAlertRow "u1" "m1" none none none none none none none none none 0]
    (by decide)

/-! ### Generic facts about the stable comparator sort (for C7) -/

section SortC

variable {α : Type}

lemma insertC_perm (c : α → α → Int) (x : α) (l : List α) :
    List.Perm (insertC c x l) (x :: l) := by
  induction l with
  | nil => exact List.Perm.refl _
  | cons y ys ih =>
    unfold insertC
    split_ifs with h
    · exact (ih.cons y).trans (List.Perm.swap x y ys)
    · exact List.Perm.refl _

lemma sortC_perm (c : α → α → Int) (l : List α) :
    List.Perm (sortC c l) l := by
  induction l with
  | nil => exact List.Perm.refl _
  | cons x xs ih =>
    exact (insertC_perm c x (sortC c xs)).trans (ih.cons x)

lemma insertC_chain (c : α → α → Int)
    (hsign : ∀ a b, 0 ≤ c a b → c b a ≤ 0) (x : α) :
    ∀ l, List.Chain' (fun a b => c a b ≤ 0) l →
      List.Chain' (fun a b => c a b ≤ 0) (insertC c x l) := by
  intro l
  induction l with
  | nil => intro _; simp [insertC]
  | cons y ys ih =>
    intro hl
    unfold insertC
    split_ifs with h
    · rw [List.chain'_cons']
      refine ⟨?_, ih hl.tail⟩
      intro z hz
      cases ys with
      | nil =>
        have hzx : x = z := by simpa [insertC] using hz
        rw [← hzx]
        exact hsign x y (le_of_lt h)
      | cons w ws =>
        by_cases hw : c x w > 0
        · have hzw : w = z := by simpa [insertC, if_pos hw] using hz
          rw [← hzw]
          exact (List.chain'_cons.mp hl).1
        · have hzx : x = z := by simpa [insertC, if_neg hw] using hz
          rw [← hzx]
          exact hsign x y (le_of_lt h)
    · rw [List.chain'_cons]
      exact ⟨by omega, hl⟩

lemma sortC_chain (c : α → α → Int)
    (hsign : ∀ a b, 0 ≤ c a b → c b a ≤ 0) (l : List α) :
    List.Chain' (fun a b => c a b ≤ 0) (sortC c l) := by
  induction l with
  | nil => simp [sortC]
  | cons x xs ih => exact insertC_chain c hsign x (sortC c xs) ih

lemma chain'_imp_of_mem {R S : α → α → Prop} :
    ∀ l : List α, (∀ a ∈ l, ∀ b ∈ l, R a b → S a b) →
      List.Chain' R l → List.Chain' S l := by
  intro l
  induction l with
  | nil => intro _ _; exact List.chain'_nil
  | cons x xs ih =>
    intro hmem hc
    rw [List.chain'_cons'] at hc ⊢
    refine ⟨?_, ih
      (fun a ha b hb hr => hmem a (by simp [ha]) b (by simp [hb]) hr) hc.2⟩
    intro y hy
    have hy' : y ∈ xs := List.mem_of_mem_head? hy
    exact hmem x (by simp) y (by simp [hy']) (hc.1 y hy)

lemma insertC_filter_pos (c : α → α → Int) (x : α) (p : α → Bool) :
    ∀ l, p x = true → (∀ y ∈ l, c x y > 0 → p y = false) →
      (insertC c x l).filter p = x :: l.filter p := by
  intro l
  induction l with
  | nil => intro hx _; simp [insertC, hx]
  | cons y ys ih =>
    intro hx hprev
    unfold insertC
    split_ifs with h
    · have hpy : p y = false := hprev y (by simp) h
      simp [List.filter_cons, hpy,
        ih hx (fun z hz hgt => hprev z (by simp [hz]) hgt)]
    · simp [List.filter_cons, hx]

lemma insertC_filter_neg (c : α → α → Int) (x : α) (p : α → Bool) :
    ∀ l, p x = false → (insertC c x l).filter p = l.filter p := by
  intro l
  induction l with
  | nil => intro hx; simp [insertC, hx]
  | cons y ys ih =>
    intro hx
    unfold insertC
    split_ifs with h
    · simp [List.filter_cons, ih hx]
    · simp [List.filter_cons, hx]

lemma sortC_filter_stable (c : α → α → Int) (p : α → Bool)
    (hcomp : ∀ a b, c a b > 0 → p a = true → p b = false) :
    ∀ l : List α, (sortC c l).filter p = l.filter p := by
  intro l
  induction l with
  | nil => rfl
  | cons x xs ih =>
    show (insertC c x (sortC c xs)).filter p = _
    by_cases hx : p x = true
    · rw [insertC_filter_pos c x p (sortC c xs) hx
        (fun y _ hgt => hcomp x y hgt hx), ih]
      simp [List.filter_cons, hx]
    · have hx' : p x = false := by simpa using hx
      rw [insertC_filter_neg c x p (sortC c xs) hx', ih]
      simp [List.filter_cons, hx']

end SortC

/-! ### Per-comparator facts (C7) -/

/-- The parsed time of a group's latest alert (meaningful when valid). -/
def timeOfG (g : Group) : Int := timeOf g.latestAlert

/-- The severity tier the `"priority"` comparator distinguishes: 2 for the
top severities, 1 for `"high"`, 0 otherwise. -/
def tierRank (g : Group) : Nat :=
  if isTop g then 2 else if g.severity = "high" then 1 else 0

lemma jsDateSub_some_some (x y : Int) : jsDateSub (some x) (some y) = x - y := rfl

lemma jsDateSub_none_left (y : Option Int) : jsDateSub none y = 0 := by
  cases y <;> rfl

lemma jsDateSub_none_right (x : Option Int) : jsDateSub x none = 0 := by
  cases x <;> rfl

lemma cmpNewest_sign (a b : Group) (h : 0 ≤ cmpNewest a b) :
    cmpNewest b a ≤ 0 := by
  unfold cmpNewest at *
  cases ha : a.latestAlert.alert_time <;> cases hb : b.latestAlert.alert_time <;>
    simp only [ha, hb, jsDateSub_some_some, jsDateSub_none_left,
      jsDateSub_none_right] at h ⊢ <;>
    omega

lemma cmpOldest_sign (a b : Group) (h : 0 ≤ cmpOldest a b) :
    cmpOldest b a ≤ 0 := by
  unfold cmpOldest at *
  cases ha : a.latestAlert.alert_time <;> cases hb : b.latestAlert.alert_time <;>
    simp only [ha, hb, jsDateSub_some_some, jsDateSub_none_left,
      jsDateSub_none_right] at h ⊢ <;>
    omega

lemma cmpAlerts_sign (a b : Group) (h : 0 ≤ cmpAlerts a b) :
    cmpAlerts b a ≤ 0 := by
  unfold cmpAlerts at *
  omega

lemma lexCmp_sign : ∀ l1 l2 : List Char, 0 ≤ lexCmp l1 l2 → lexCmp l2 l1 ≤ 0 := by
  intro l1
  induction l1 with
  | nil =>
    intro l2
    cases l2 <;> simp [lexCmp]
  | cons a as ih =>
    intro l2
    cases l2 with
    | nil => simp [lexCmp]
    | cons b bs =>
      intro h
      simp only [lexCmp] at h ⊢
      by_cases hab : a < b
      · rw [if_pos hab] at h
        omega
      · by_cases hba : b < a
        · rw [if_pos hba]
          omega
        · rw [if_neg hab, if_neg hba] at h
          rw [if_neg hba, if_neg hab]
          exact ih bs h

lemma cmpDevice_sign (a b : Group) (h : 0 ≤ cmpDevice a b) :
    cmpDevice b a ≤ 0 :=
  lexCmp_sign _ _ h

lemma cmpPriority_sign (a b : Group) (h : 0 ≤ cmpPriority a b) :
    cmpPriority b a ≤ 0 := by
  unfold cmpPriority at *
  split_ifs at h ⊢ <;> first | omega | tauto

lemma lexCmp_self : ∀ l : List Char, lexCmp l l = 0 := by
  intro l
  induction l with
  | nil => rfl
  | cons a as ih => simp [lexCmp, ih]

lemma cmpNewest_key (a b : Group) (h : cmpNewest a b > 0) :
    a.latestAlert.alert_time ≠ b.latestAlert.alert_time := by
  unfold cmpNewest at h
  cases ha : a.latestAlert.alert_time <;> cases hb : b.latestAlert.alert_time <;>
    simp only [ha, hb, jsDateSub_some_some, jsDateSub_none_left,
      jsDateSub_none_right] at h <;>
    simp_all <;>
    omega

lemma cmpOldest_key (a b : Group) (h : cmpOldest a b > 0) :
    a.latestAlert.alert_time ≠ b.latestAlert.alert_time := by
  unfold cmpOldest at h
  cases ha : a.latestAlert.alert_time <;> cases hb : b.latestAlert.alert_time <;>
    simp only [ha, hb, jsDateSub_some_some, jsDateSub_none_left,
      jsDateSub_none_right] at h <;>
    simp_all <;>
    omega

lemma cmpAlerts_key (a b : Group) (h : cmpAlerts a b > 0) :
    a.count ≠ b.count := by
  unfold cmpAlerts at h
  omega

lemma cmpDevice_key (a b : Group) (h : cmpDevice a b > 0) :
    a.device ≠ b.device := by
  intro he
  unfold cmpDevice at h
  rw [he, lexCmp_self] at h
  omega

lemma cmpPriority_key (a b : Group) (h : cmpPriority a b > 0) :
    (tierRank a, a.count) ≠ (tierRank b, b.count) := by
  unfold cmpPriority at h
  split_ifs at h with h1 h2 h3 h4
  · omega
  · intro he
    have hfst := congrArg Prod.fst he
    simp only at hfst
    have hb2 : tierRank b = 2 := by simp [tierRank, h2.1]
    have ha2 : tierRank a ≠ 2 := by
      simp only [tierRank]
      rw [if_neg h2.2]
      split_ifs <;> omega
    exact ha2 (hfst.trans hb2)
  · omega
  · intro he
    have hfst := congrArg Prod.fst he
    simp only at hfst
    have hb1 : tierRank b = 1 := by
      have : ¬ isTop b = true := by
        simp [isTop, h4.1]
      simp [tierRank, this, h4.1]
    have ha0 : tierRank a = 0 := by
      have : ¬ isTop a = true := by
        simp [isTop, h4.2]
      simp [tierRank, this, h4.2]
    rw [ha0, hb1] at hfst
    exact absurd hfst (by omega)
  · intro he
    have hsnd := congrArg Prod.snd he
    simp only at hsnd
    omega

lemma cmpPriority_le_interp (a b : Group)
    (ha : a.severity = "crash-detected" ∨ a.severity = "heavy-impact" ∨
      a.severity = "high" ∨ a.severity = "normal")
    (hb : b.severity = "crash-detected" ∨ b.severity = "heavy-impact" ∨
      b.severity = "high" ∨ b.severity = "normal")
    (h : cmpPriority a b ≤ 0) :
    tierRank b < tierRank a ∨
      (tierRank a = tierRank b ∧ b.count ≤ a.count) := by
  rcases ha with ha | ha | ha | ha <;> rcases hb with hb | hb | hb | hb <;>
    simp_all [cmpPriority, tierRank, isTop] <;> omega

/-- The conjunction claim C7 asserts of one rollup list: each of the five
`sortBy` comparators yields a permutation of the list; `"newest"` is
non-increasing and `"oldest"` non-decreasing in the latest alert's time,
`"device"` is lexicographically non-decreasing in the device name,
`"alerts"` is non-increasing in the count, and `"priority"` puts higher
tiers first with the count as tiebreaker; and each sort is stable — the
records of any one sort-key value keep their original relative order. -/
def C7Conclusion (l : List Group) : Prop :=
  List.Perm (sortC cmpPriority l) l ∧
  List.Perm (sortC cmpNewest l) l ∧
  List.Perm (sortC cmpOldest l) l ∧
  List.Perm (sortC cmpDevice l) l ∧
  List.Perm (sortC cmpAlerts l) l ∧
  List.Chain' (fun a b => timeOfG b ≤ timeOfG a) (sortC cmpNewest l) ∧
  List.Chain' (fun a b => timeOfG a ≤ timeOfG b) (sortC cmpOldest l) ∧
  List.Chain' (fun a b => lexCmp a.device.data b.device.data ≤ 0)
    (sortC cmpDevice l) ∧
  List.Chain' (fun a b => b.count ≤ a.count) (sortC cmpAlerts l) ∧
  List.Chain' (fun a b => tierRank b < tierRank a ∨
    (tierRank a = tierRank b ∧ b.count ≤ a.count)) (sortC cmpPriority l) ∧
  (∀ t : Option Int,
    (sortC cmpNewest l).filter (fun g => g.latestAlert.alert_time = t) =
      l.filter (fun g => g.latestAlert.alert_time = t)) ∧
  (∀ t : Option Int,
    (sortC cmpOldest l).filter (fun g => g.latestAlert.alert_time = t) =
      l.filter (fun g => g.latestAlert.alert_time = t)) ∧
  (∀ d : String,
    (sortC cmpDevice l).filter (fun g => g.device = d) =
      l.filter (fun g => g.device = d)) ∧
  (∀ n : Nat,
    (sortC cmpAlerts l).filter (fun g => g.count = n) =
      l.filter (fun g => g.count = n)) ∧
  (∀ k : Nat × Nat,
    (sortC cmpPriority l).filter (fun g => (tierRank g, g.count) = k) =
      l.filter (fun g => (tierRank g, g.count) = k))

/-- Claim C7: over any rollup list whose latest-alert times are valid and
whose severities are among the four the code produces, every supported sort
key returns a stable permutation of the list ordered by that key. -/
theorem c7_sorts (l : List Group)
    (hvalid : ∀ g ∈ l, g.latestAlert.alert_time.isSome = true)
    (hsev : ∀ g ∈ l, g.severity = "crash-detected" ∨
      g.severity = "heavy-impact" ∨ g.severity = "high" ∨
      g.severity = "normal") :
    C7Conclusion l := by
  refine ⟨sortC_perm _ l, sortC_perm _ l, sortC_perm _ l, sortC_perm _ l,
    sortC_perm _ l, ?_, ?_, ?_, ?_, ?_, ?_, ?_, ?_, ?_, ?_⟩
  · refine chain'_imp_of_mem _ ?_ (sortC_chain cmpNewest cmpNewest_sign l)
    intro a hma b hmb h
    obtain ⟨ta, hta⟩ := Option.isSome_iff_exists.mp
      (hvalid a ((sortC_perm cmpNewest l).mem_iff.mp hma))
    obtain ⟨tb, htb⟩ := Option.isSome_iff_exists.mp
      (hvalid b ((sortC_perm cmpNewest l).mem_iff.mp hmb))
    unfold cmpNewest at h
    rw [hta, htb, jsDateSub_some_some] at h
    simp only [timeOfG, timeOf, hta, htb, Option.getD_some]
    omega
  · refine chain'_imp_of_mem _ ?_ (sortC_chain cmpOldest cmpOldest_sign l)
    intro a hma b hmb h
    obtain ⟨ta, hta⟩ := Option.isSome_iff_exists.mp
      (hvalid a ((sortC_perm cmpOldest l).mem_iff.mp hma))
    obtain ⟨tb, htb⟩ := Option.isSome_iff_exists.mp
      (hvalid b ((sortC_perm cmpOldest l).mem_iff.mp hmb))
    unfold cmpOldest at h
    rw [hta, htb, jsDateSub_some_some] at h
    simp only [timeOfG, timeOf, hta, htb, Option.getD_some]
    omega
  · exact sortC_chain cmpDevice cmpDevice_sign l
  · refine chain'_imp_of_mem _ ?_ (sortC_chain cmpAlerts cmpAlerts_sign l)
    intro a _ b _ h
    unfold cmpAlerts at h
    omega
  · refine chain'_imp_of_mem _ ?_ (sortC_chain cmpPriority cmpPriority_sign l)
    intro a hma b hmb h
    exact cmpPriority_le_interp a b
      (hsev a ((sortC_perm cmpPriority l).mem_iff.mp hma))
      (hsev b ((sortC_perm cmpPriority l).mem_iff.mp hmb)) h
  · intro t
    refine sortC_filter_stable cmpNewest _ ?_ l
    intro a b hgt hpa
    simp only [decide_eq_true_eq] at hpa
    simp only [decide_eq_false_iff_not]
    intro hb
    exact cmpNewest_key a b hgt (by rw [hpa, hb])
  · intro t
    refine sortC_filter_stable cmpOldest _ ?_ l
    intro a b hgt hpa
    simp only [decide_eq_true_eq] at hpa
    simp only [decide_eq_false_iff_not]
    intro hb
    exact cmpOldest_key a b hgt (by rw [hpa, hb])
  · intro d
    refine sortC_filter_stable cmpDevice _ ?_ l
    intro a b hgt hpa
    simp only [decide_eq_true_eq] at hpa
    simp only [decide_eq_false_iff_not]
    intro hb
    exact cmpDevice_key a b hgt (by rw [hpa, hb])
  · intro n
    refine sortC_filter_stable cmpAlerts _ ?_ l
    intro a b hgt hpa
    simp only [decide_eq_true_eq] at hpa
    simp only [decide_eq_false_iff_not]
    intro hb
    exact cmpAlerts_key a b hgt (by rw [hpa, hb])
  · intro k
    refine sortC_filter_stable cmpPriority _ ?_ l
    intro a b hgt hpa
    simp only [decide_eq_true_eq] at hpa
    simp only [decide_eq_false_iff_not]
    intro hb
    exact cmpPriority_key a b hgt (by rw [hpa, hb])

/-- Claim C7, witness: the conjunction holds on a concrete three-rollup list
covering the three severities, distinct counts, times and device names. -/
theorem c7_sorts_witness :
    C7Conclusion
      [⟨"A", [], 2, ⟨some "A", some "Over-turn", some 5, 0⟩, "high"⟩,
        ⟨"B", [], 1, ⟨some "B", some "Motion", some 9, 1⟩, "normal"⟩,
        ⟨"C", [], 3, ⟨some "C", some "Over-turn", some 1, 2⟩,
          "crash-detected"⟩] :=
  c7_sorts _ (by decide) (by decide)

end TrackerSpec
